import Mathlib

/-!
Shallow embedding of the interaction-and-viewport core of the
egui_graphs widget (src/graph_view.rs).

Modelling conventions:
* f32 values are modelled as rationals (ℚ); f32::MAX is the exact rational
  value (2 - 2^-23) * 2^127 of the float, and division by zero follows the
  rational convention x / 0 = 0.
* petgraph StableGraph node/edge indices are modelled as positions into the
  node and edge lists (valid for a graph built without removals, as in the
  repository test helper).
* .unwrap() on a weight lookup panics in Rust on a missing index; we model
  the lookup with a default element and theorems carry index-validity
  hypotheses whenever the default could otherwise be observed.
-/

namespace EguiGraphs

/-- Two-dimensional vector over ℚ, modelling egui Vec2 and Pos2. -/
structure Vec2 where
  x : ℚ
  y : ℚ
deriving DecidableEq, Repr

instance : Inhabited Vec2 := ⟨⟨0, 0⟩⟩

instance : Add Vec2 := ⟨fun a b => ⟨a.x + b.x, a.y + b.y⟩⟩

instance : Sub Vec2 := ⟨fun a b => ⟨a.x - b.x, a.y - b.y⟩⟩

instance : HMul Vec2 ℚ Vec2 := ⟨fun v s => ⟨v.x * s, v.y * s⟩⟩

instance : HDiv Vec2 ℚ Vec2 := ⟨fun v s => ⟨v.x / s, v.y / s⟩⟩

theorem Vec2.add_def (a b : Vec2) : a + b = ⟨a.x + b.x, a.y + b.y⟩ := rfl

theorem Vec2.sub_def (a b : Vec2) : a - b = ⟨a.x - b.x, a.y - b.y⟩ := rfl

theorem Vec2.mul_def (v : Vec2) (s : ℚ) : v * s = ⟨v.x * s, v.y * s⟩ := rfl

theorem Vec2.div_def (v : Vec2) (s : ℚ) : v / s = ⟨v.x / s, v.y / s⟩ := rfl

/-- Axis-aligned rectangle (egui Rect). -/
structure RectQ where
  min : Vec2
  max : Vec2
deriving DecidableEq, Repr

/-- egui Rect::center, the midpoint of min and max. -/
def RectQ.center (r : RectQ) : Vec2 := (r.min + r.max) / (2 : ℚ)

/-- egui Rect::size, max - min. -/
def RectQ.size (r : RectQ) : Vec2 := r.max - r.min

/-- Viewport metadata (metadata.rs, fields as used by graph_view.rs):
pan, zoom, the first-frame flag and the stored graph bounds. -/
structure Metadata where
  zoom : ℚ
  pan : Vec2
  first_frame : Bool
  graph_bounds : RectQ
deriving DecidableEq, Repr

/-- The exact rational value of f32::MAX, the initial fold value of
bounding_rect for the min components. -/
def fMAX : ℚ := (2 ^ 24 - 1) * 2 ^ 104

/-- The exact rational value of f32::MIN, the initial fold value of
bounding_rect for the max components. -/
def fMIN : ℚ := -fMAX

/-- Node weight (elements.rs Node, the fields graph_view.rs reads and
writes): location, radius, and the four boolean flags. -/
structure NodeW where
  location : Vec2
  radius : ℚ
  selected : Bool
  dragged : Bool
  selected_child : Bool
  selected_parent : Bool
deriving DecidableEq, Repr

instance : Inhabited NodeW := ⟨⟨⟨0, 0⟩, 5, false, false, false, false⟩⟩

/-- Edge weight (elements.rs Edge): the three boolean flags graph_view.rs
reads and writes. -/
structure EdgeW where
  selected : Bool
  selected_child : Bool
  selected_parent : Bool
deriving DecidableEq, Repr

instance : Inhabited EdgeW := ⟨⟨false, false, false⟩⟩

/-- One edge of the stable graph: endpoint node indices plus the weight. -/
structure EdgeRec where
  source : Nat
  target : Nat
  weight : EdgeW
deriving DecidableEq, Repr

instance : Inhabited EdgeRec := ⟨⟨0, 0, default⟩⟩

/-- The caller-supplied graph: StableGraph with Node and Edge weights,
modelled by position-indexed lists. -/
structure GraphQ where
  nodes : List NodeW
  edges : List EdgeRec
deriving DecidableEq, Repr

/-- node_weight(idx).unwrap(), defaulting on a missing index (the Rust
code would panic there; theorems exclude that case). -/
def getNode (g : GraphQ) (idx : Nat) : NodeW := (g.nodes.get? idx).getD default

/-- edge_weight(idx).unwrap(), defaulting on a missing index. -/
def getEdge (g : GraphQ) (idx : Nat) : EdgeW :=
  ((g.edges.get? idx).map EdgeRec.weight).getD default

/-- node_weight_mut(idx).unwrap() followed by a field update: replace the
node at idx by f applied to it (no-op on a missing index, which the Rust
code turns into a panic; theorems exclude it). -/
def updNode (g : GraphQ) (idx : Nat) (f : NodeW → NodeW) : GraphQ :=
  { g with nodes := g.nodes.set idx (f (getNode g idx)) }

/-- edge_weight_mut(idx).unwrap() followed by a field update. -/
def updEdge (g : GraphQ) (idx : Nat) (f : EdgeW → EdgeW) : GraphQ :=
  let old := (g.edges.get? idx).getD default
  { g with edges := g.edges.set idx { old with weight := f (getEdge g idx) } }

/-- Interaction settings (settings.rs SettingsInteraction). -/
structure SettingsInteraction where
  node_click : Bool
  node_select : Bool
  node_multiselect : Bool
  node_drag : Bool
  selection_depth : Int
deriving DecidableEq, Repr

/-- Navigation settings (settings.rs SettingsNavigation). -/
structure SettingsNavigation where
  fit_to_screen : Bool
  zoom_and_pan : Bool
  screen_padding : ℚ
  zoom_step : ℚ
deriving DecidableEq, Repr

/-- Style settings (settings.rs SettingsStyle), the one field
graph_view.rs uses. -/
structure SettingsStyle where
  edge_radius_weight : ℚ
deriving DecidableEq, Repr

/-- A change record (change.rs): one field mutation with index, old and
new value, for node selected / dragged / location and edge selected. -/
inductive Change where
  | nodeSelected (idx : Nat) (old new : Bool)
  | nodeDragged (idx : Nat) (old new : Bool)
  | nodeLocation (idx : Nat) (old new : Vec2)
  | edgeSelected (idx : Nat) (old new : Bool)
deriving DecidableEq, Repr

/-- Selections (selections.rs, file not in src/). Modelled from the spec:
a mapping from each selected root node index to the set of node indices
and the set of edge indices reached from it by the propagation algorithm.
Stored as a list of (root, nodes, edges) entries. -/
structure SelectionsQ where
  data : List (Nat × List Nat × List Nat)
deriving DecidableEq, Repr

/-- Modelled from the spec: the elements method of Selections returns the
union over all roots of the per-root node sets and edge sets (sets, hence
deduplicated, first occurrence kept). -/
def SelectionsQ.elements (s : SelectionsQ) : List Nat × List Nat :=
  ((s.data.foldl (fun acc e => acc ++ e.2.1) []).dedup,
   (s.data.foldl (fun acc e => acc ++ e.2.2) []).dedup)

/-- Per-frame state (frame_state.rs, file not in src/): the dragged node
index, if any, and the computed selections. -/
structure FrameStateQ where
  dragged : Option Nat
  selections : Option SelectionsQ
deriving DecidableEq, Repr

/-- The per-frame input read off the egui Response and input state:
click/drag phase flags, hover position, raw drag delta, widget rect. -/
structure ResponseInput where
  clicked : Bool
  drag_started : Bool
  dragged : Bool
  drag_released : Bool
  hover_pos : Option Vec2
  drag_delta : Vec2
  rect : RectQ
deriving DecidableEq, Repr

/-- Spec transform screenToGraph(p) = (p - pan) / zoom; this is exactly the
transform node_by_pos applies to the pointer position. -/
def screenToGraph (m : Metadata) (p : Vec2) : Vec2 := (p - m.pan) / m.zoom

/-- Spec transform graphToScreen(g) = g * zoom + pan. -/
def graphToScreen (m : Metadata) (g : Vec2) : Vec2 := g * m.zoom + m.pan

/-- GraphView::zoom (graph_view.rs lines 301-312): anchored zoom. The
anchor is taken relative to the widget rect origin; the graph point under
the anchor (in that relative frame) is recomputed with the old pan/zoom
and pan is adjusted so it stays fixed under the new zoom. -/
def zoom (rect : RectQ) (delta : ℚ) (zoom_center : Option Vec2)
    (meta : Metadata) : Metadata :=
  let center_pos : Vec2 :=
    match zoom_center with
    | some c => c - rect.min
    | none => rect.center - rect.min
  let graph_center_pos := (center_pos - meta.pan) / meta.zoom
  let factor := 1 + delta
  let new_zoom := meta.zoom * factor
  { meta with
      pan := meta.pan + (graph_center_pos * meta.zoom - graph_center_pos * new_zoom)
      zoom := new_zoom }

/-- The loop body of GraphView::bounding_rect (graph_view.rs lines
115-135): shrink the running min by location - radius and grow the
running max by location + radius, with the source's strict
comparisons. -/
def brStep (acc : ℚ × ℚ × ℚ × ℚ) (n : NodeW) : ℚ × ℚ × ℚ × ℚ :=
  let (min_x, min_y, max_x, max_y) := acc
  let x_minus_rad := n.location.x - n.radius
  let min_x' := if x_minus_rad < min_x then x_minus_rad else min_x
  let y_minus_rad := n.location.y - n.radius
  let min_y' := if y_minus_rad < min_y then y_minus_rad else min_y
  let x_plus_rad := n.location.x + n.radius
  let max_x' := if x_plus_rad > max_x then x_plus_rad else max_x
  let y_plus_rad := n.location.y + n.radius
  let max_y' := if y_plus_rad > max_y then y_plus_rad else max_y
  (min_x', min_y', max_x', max_y')

/-- GraphView::bounding_rect (graph_view.rs lines 112-138): fold the loop
body over all node weights starting from (f32::MAX, f32::MAX, f32::MIN,
f32::MIN). -/
def bounding_rect (g : GraphQ) : RectQ :=
  let r := g.nodes.foldl brStep (fMAX, fMAX, fMIN, fMIN)
  ⟨⟨r.1, r.2.1⟩, ⟨r.2.2.1, r.2.2.2⟩⟩

/-- GraphView::node_by_pos (graph_view.rs lines 140-146): transform the
screen position to graph coordinates with pan/zoom and return the first
node (in index order) whose distance to the position is at most its
radius. The Euclidean comparison |v| <= r is encoded square-free as
v.x^2 + v.y^2 <= r^2 together with 0 <= r, which is equivalent over ℝ. -/
def node_by_pos (g : GraphQ) (meta : Metadata) (pos : Vec2) :
    Option (Nat × NodeW) :=
  let pos_in_graph := (pos - meta.pan) / meta.zoom
  g.nodes.enum.find? (fun p =>
    let v := p.2.location - pos_in_graph
    decide (v.x * v.x + v.y * v.y ≤ p.2.radius * p.2.radius ∧ 0 ≤ p.2.radius))

/-- GraphView::fit_to_screen (graph_view.rs lines 232-259): pad the stored
bounds, take the per-axis canvas/graph ratios, zoom by the minimum via the
anchored zoom at the rect center, then set pan so the bounds center maps
to the rect center. -/
def fit_to_screen (rect : RectQ) (sn : SettingsNavigation)
    (meta : Metadata) : Metadata :=
  let diag := meta.graph_bounds.max - meta.graph_bounds.min
  let graph_size := diag * (1 + sn.screen_padding)
  let width := graph_size.x
  let height := graph_size.y
  let canvas_size := rect.size
  let zoom_x := canvas_size.x / width
  let zoom_y := canvas_size.y / height
  let new_zoom := min zoom_x zoom_y
  let zoom_delta := new_zoom / meta.zoom - 1
  let m1 := zoom rect zoom_delta none meta
  let graph_center := (meta.graph_bounds.min + meta.graph_bounds.max) / (2 : ℚ)
  { m1 with pan := rect.center - graph_center * new_zoom }

/-- f32::signum for the nonzero arguments handle_zoom produces (the source
guards delta != 1 first; signum of +0.0 is 1.0 in Rust, matched here). -/
def qsignum (q : ℚ) : ℚ := if q < 0 then -1 else 1

/-- GraphView::handle_zoom (graph_view.rs lines 276-289): gated on
zoom_and_pan; no-op when the frame zoom delta is 1; otherwise apply the
anchored zoom with step zoom_step * signum(1 - delta) at the pointer. -/
def handle_zoom (frame_zoom_delta : ℚ) (hover : Option Vec2) (rect : RectQ)
    (sn : SettingsNavigation) (meta : Metadata) : Metadata :=
  if !sn.zoom_and_pan then meta
  else if frame_zoom_delta = 1 then meta
  else
    let step := sn.zoom_step * qsignum (1 - frame_zoom_delta)
    zoom rect step hover meta

/-- GraphView::handle_pan (graph_view.rs lines 291-299): gated on
zoom_and_pan; when dragging with no dragged node, add the raw screen-space
drag delta to pan. -/
def handle_pan (resp : ResponseInput) (sn : SettingsNavigation)
    (state : FrameStateQ) (meta : Metadata) : Metadata :=
  if !sn.zoom_and_pan then meta
  else if resp.dragged && state.dragged.isNone then
    { meta with pan := meta.pan + resp.drag_delta }
  else meta

/-- GraphView::fit_if_first (graph_view.rs lines 149-157): on the first
frame, store the bounding rect, fit to screen, and clear the flag. -/
def fit_if_first (g : GraphQ) (rect : RectQ) (sn : SettingsNavigation)
    (meta : Metadata) : Metadata :=
  if !meta.first_frame then meta
  else
    let m1 := { meta with graph_bounds := bounding_rect g }
    let m2 := fit_to_screen rect sn m1
    { m2 with first_frame := false }

/-- GraphView::handle_navigation (graph_view.rs lines 261-274): in
fit_to_screen mode snap to fit every frame, otherwise zoom then pan. -/
def handle_navigation (frame_zoom_delta : ℚ) (hover : Option Vec2)
    (resp : ResponseInput) (sn : SettingsNavigation) (state : FrameStateQ)
    (meta : Metadata) : Metadata :=
  if sn.fit_to_screen then fit_to_screen resp.rect sn meta
  else handle_pan resp sn state (handle_zoom frame_zoom_delta hover resp.rect sn meta)

/-- GraphView::set_node_selected (graph_view.rs lines 314-319): record the
old selected flag, set the new one, and emit one nodeSelected change.
The source sends the change through the optional sink; we return it. -/
def set_node_selected (g : GraphQ) (idx : Nat) (val : Bool) :
    GraphQ × Change :=
  let old := (getNode g idx).selected
  (updNode g idx (fun n => { n with selected := val }),
   Change.nodeSelected idx old val)

/-- GraphView::set_edge_selected (graph_view.rs lines 321-326). -/
def set_edge_selected (g : GraphQ) (idx : Nat) (val : Bool) :
    GraphQ × Change :=
  let old := (getEdge g idx).selected
  (updEdge g idx (fun e => { e with selected := val }),
   Change.edgeSelected idx old val)

/-- GraphView::set_dragged (graph_view.rs lines 352-357). -/
def set_dragged (g : GraphQ) (idx : Nat) (val : Bool) : GraphQ × Change :=
  let old := (getNode g idx).dragged
  (updNode g idx (fun n => { n with dragged := val }),
   Change.nodeDragged idx old val)

/-- GraphView::move_node (graph_view.rs lines 359-365): translate the
node location by delta and emit one nodeLocation change with old and new
locations. -/
def move_node (g : GraphQ) (idx : Nat) (delta : Vec2) : GraphQ × Change :=
  let old := (getNode g idx).location
  (updNode g idx (fun n => { n with location := n.location + delta }),
   Change.nodeLocation idx old (old + delta))

/-- The node loop body of GraphView::deselect_all (graph_view.rs lines
335-341), iterated over the selected-node index list: deselect (emitting
a change) and clear selected_child / selected_parent. -/
def deselNodes (g : GraphQ) : List Nat → GraphQ × List Change
  | [] => (g, [])
  | i :: t =>
    let s := set_node_selected g i false
    let g2 := updNode s.1 i
      (fun n => { n with selected_child := false, selected_parent := false })
    let r := deselNodes g2 t
    (r.1, s.2 :: r.2)

/-- The edge loop body of GraphView::deselect_all (graph_view.rs lines
343-349). -/
def deselEdges (g : GraphQ) : List Nat → GraphQ × List Change
  | [] => (g, [])
  | i :: t =>
    let s := set_edge_selected g i false
    let g2 := updEdge s.1 i
      (fun e => { e with selected_child := false, selected_parent := false })
    let r := deselEdges g2 t
    (r.1, s.2 :: r.2)

/-- GraphView::deselect_all (graph_view.rs lines 328-350): no-op without
selections; otherwise walk the selections elements, deselecting every
listed node then every listed edge and clearing their child/parent
flags. Changes are emitted in iteration order, nodes before edges. -/
def deselect_all (g : GraphQ) (state : FrameStateQ) : GraphQ × List Change :=
  match state.selections with
  | none => (g, [])
  | some sel =>
    let els := sel.elements
    let rn := deselNodes g els.1
    let re := deselEdges rn.1 els.2
    (re.1, rn.2 ++ re.2)

/-- GraphView::handle_node_click (graph_view.rs lines 186-202): gated on
node_select; toggle off an already-selected node; otherwise deselect all
first unless multiselect, then select the hit node. -/
def handle_node_click (g : GraphQ) (si : SettingsInteraction) (idx : Nat)
    (state : FrameStateQ) : GraphQ × List Change :=
  if !si.node_select then (g, [])
  else if (getNode g idx).selected then
    let s := set_node_selected g idx false
    (s.1, [s.2])
  else if !si.node_multiselect then
    let d := deselect_all g state
    let s := set_node_selected d.1 idx true
    (s.1, d.2 ++ [s.2])
  else
    let s := set_node_selected g idx true
    (s.1, [s.2])

/-- GraphView::handle_click (graph_view.rs lines 159-184): needs a click
and one of the click/select/multiselect settings; hit-test at the hover
position (unwrapped in the source; defaulted here, theorems supply it);
on a miss deselect all when selection is enabled, on a hit delegate to
handle_node_click. -/
def handle_click (g : GraphQ) (resp : ResponseInput)
    (si : SettingsInteraction) (state : FrameStateQ) (meta : Metadata) :
    GraphQ × List Change :=
  if !resp.clicked then (g, [])
  else if !(si.node_click || si.node_select || si.node_multiselect) then (g, [])
  else
    match node_by_pos g meta (resp.hover_pos.getD default) with
    | none =>
      if si.node_select || si.node_multiselect then deselect_all g state
      else (g, [])
    | some hit => handle_node_click g si hit.1 state

/-- GraphView::handle_nodes_drags (graph_view.rs lines 204-230): gated on
node_drag. On drag start, hit-test and mark the hit node dragged. While
dragging with a recorded dragged node, move it by drag_delta / zoom. On
release with a recorded dragged node, clear its dragged flag. The frame
state is read-only here, exactly as in the source. -/
def handle_nodes_drags (g : GraphQ) (resp : ResponseInput)
    (si : SettingsInteraction) (state : FrameStateQ) (meta : Metadata) :
    GraphQ × List Change :=
  if !si.node_drag then (g, [])
  else
    let r1 : GraphQ × List Change :=
      if resp.drag_started then
        match node_by_pos g meta (resp.hover_pos.getD default) with
        | some hit =>
          let s := set_dragged g hit.1 true
          (s.1, [s.2])
        | none => (g, [])
      else (g, [])
    let r2 : GraphQ × List Change :=
      if resp.dragged && state.dragged.isSome then
        let n_idx_dragged := state.dragged.getD 0
        let delta_in_graph_coords := resp.drag_delta / meta.zoom
        let s := move_node r1.1 n_idx_dragged delta_in_graph_coords
        (s.1, r1.2 ++ [s.2])
      else r1
    if resp.drag_released && state.dragged.isSome then
      let s := set_dragged r2.1 (state.dragged.getD 0) false
      (s.1, r2.2 ++ [s.2])
    else r2

/-- Modelled from the spec: the Frame State holds the currently dragged
node index, at most one (frame_state.rs is not in src/); it is derived
from the graph by scanning for the node whose dragged flag is set. -/
def recordDragged (g : GraphQ) : Option Nat :=
  (g.nodes.enum.find? (fun p => p.2.dragged)).map Prod.fst

/-- Modelled from the spec: Node::reset_precalculated (elements.rs is not
in src/) resets the radius to the base value and clears the transient
selected_child / selected_parent flags; selected and dragged persist.
The base radius 5 matches the repository test, where fresh nodes of
radius 5 give the expected bounding rect. -/
def node_radius : ℚ := 5

/-- Modelled from the spec: per-node part of the frame reset. -/
def NodeW.reset_precalculated (n : NodeW) : NodeW :=
  { n with radius := node_radius, selected_child := false,
           selected_parent := false }

/-- Modelled from the spec: per-edge part of the frame reset. -/
def EdgeW.reset_precalculated (e : EdgeW) : EdgeW :=
  { e with selected_child := false, selected_parent := false }

/-- The unordered endpoint pair of an edge, ordered (low, high). -/
def pairKey (a b : Nat) : Nat × Nat := if a ≤ b then (a, b) else (b, a)

/-- Append an edge index under its pair key, keeping first-seen group
order. -/
def groupInsert : List ((Nat × Nat) × List Nat) → (Nat × Nat) → Nat →
    List ((Nat × Nat) × List Nat)
  | [], k, e => [(k, [e])]
  | (k', es) :: t, k, e =>
    if k' = k then (k', es ++ [e]) :: t else (k', es) :: groupInsert t k e

/-- Modelled from the spec: FrameState::edges_by_nodes (frame_state.rs is
not in src/) groups all edge indices by unordered endpoint pair. -/
def edges_by_nodes (g : GraphQ) : List ((Nat × Nat) × List Nat) :=
  g.edges.enum.foldl
    (fun acc p => groupInsert acc (pairKey p.2.source p.2.target) p.1) []

/-- Forward (outgoing) neighbor list of a node. -/
def outNeighbors (g : GraphQ) (u : Nat) : List Nat :=
  (g.edges.filter (fun er => er.source = u)).map EdgeRec.target

/-- Backward (incoming) neighbor list of a node. -/
def inNeighbors (g : GraphQ) (u : Nat) : List Nat :=
  (g.edges.filter (fun er => er.target = u)).map EdgeRec.source

/-- Modelled from the spec: the set of nodes within h hops of the root,
following outgoing edges when fwd and incoming edges otherwise,
deduplicated. -/
def withinHops (g : GraphQ) (fwd : Bool) (root : Nat) : Nat → List Nat
  | 0 => [root]
  | h + 1 =>
    let prev := withinHops g fwd root h
    (prev ++ prev.foldl
      (fun acc u => acc ++ (if fwd then outNeighbors g u else inNeighbors g u))
      []).dedup

/-- Modelled from the spec: Selections::add_selection reached-node set for
one root: a bounded traversal of depth |depth| hops, forward along
outgoing edges when depth > 0 and backward along incoming edges when
depth <= 0 (depth = 0 reaches only the root: no propagation). The root
itself is part of its own entry, as required by deselect_all reaching the
selected roots through elements(). -/
def reachedNodes (g : GraphQ) (root : Nat) (depth : Int) : List Nat :=
  withinHops g (decide (depth > 0)) root depth.natAbs

/-- Modelled from the spec: the traversed-edge set for one root: every
edge leaving (or, backward, entering) a node strictly within the depth
bound. -/
def reachedEdges (g : GraphQ) (root : Nat) (depth : Int) : List Nat :=
  match depth.natAbs with
  | 0 => []
  | h + 1 =>
    let fwd := decide (depth > 0)
    let s := withinHops g fwd root h
    (g.edges.enum.filter
      (fun p => if fwd then s.contains p.2.source else s.contains p.2.target)).map
      Prod.fst

/-- GraphView::precompute_state (graph_view.rs lines 367-434): reset all
node and edge precalculated fields; add edge_radius_weight * multiplicity
to both endpoints of every unordered endpoint pair; build the Selections
from every selected root; collect the reached nodes (minus each root) and
edges and flag them selected_child when selection_depth > 0, otherwise
selected_parent. Returns the mutated graph and the frame state. -/
def precompute_state (g : GraphQ) (si : SettingsInteraction)
    (ss : SettingsStyle) : GraphQ × FrameStateQ :=
  let g1 : GraphQ :=
    { nodes := g.nodes.map NodeW.reset_precalculated
      edges := g.edges.map
        (fun er => { er with weight := er.weight.reset_precalculated }) }
  let groups := edges_by_nodes g1
  let g2 := groups.foldl
    (fun acc p =>
      let bonus := ss.edge_radius_weight * (p.2.length : ℚ)
      let acc1 := updNode acc p.1.1 (fun n => { n with radius := n.radius + bonus })
      updNode acc1 p.1.2 (fun n => { n with radius := n.radius + bonus }))
    g1
  let roots := (g2.nodes.enum.filter (fun p => p.2.selected)).map Prod.fst
  let sel : SelectionsQ :=
    ⟨roots.map (fun r =>
      (r, reachedNodes g2 r si.selection_depth,
          reachedEdges g2 r si.selection_depth))⟩
  let subselected_nodes :=
    sel.data.foldl (fun acc e => acc ++ e.2.1.filter (fun i => i ≠ e.1)) []
  let subselected_edges := sel.data.foldl (fun acc e => acc ++ e.2.2) []
  let g3 := subselected_nodes.foldl
    (fun acc i => updNode acc i
      (fun n => if si.selection_depth > 0 then { n with selected_child := true }
                else { n with selected_parent := true }))
    g2
  let g4 := subselected_edges.foldl
    (fun acc i => updEdge acc i
      (fun e => if si.selection_depth > 0 then { e with selected_child := true }
                else { e with selected_parent := true }))
    g3
  (g4, { dragged := none, selections := some sel })

/-! Concrete fixtures used by witnesses and counterexamples. -/

/-- A fresh node at position p with the base radius and a chosen selected
flag, as produced by Node::new in the repository test helper. -/
def exNode (p : Vec2) (sel : Bool) : NodeW :=
  { location := p, radius := 5, selected := sel, dragged := false,
    selected_child := false, selected_parent := false }

/-- Default-like metadata past the first frame: zoom 1, pan 0. -/
def exMeta : Metadata :=
  { zoom := 1, pan := ⟨0, 0⟩, first_frame := false,
    graph_bounds := ⟨⟨0, 0⟩, ⟨0, 0⟩⟩ }

/-- A 100x100 widget rect at the origin. -/
def exRect : RectQ := ⟨⟨0, 0⟩, ⟨100, 100⟩⟩

/-- Select-enabled interaction settings with selection depth 1. -/
def exSettings : SettingsInteraction :=
  { node_click := false, node_select := true, node_multiselect := false,
    node_drag := true, selection_depth := 1 }

/-- Style with no per-edge radius bonus. -/
def exStyle : SettingsStyle := ⟨0⟩

/-- Default-like navigation settings. -/
def exNav : SettingsNavigation :=
  { fit_to_screen := false, zoom_and_pan := true, screen_padding := 3 / 10,
    zoom_step := 1 / 10 }

/-- A frame input with the given phase flags, hover position and drag
delta over the 100x100 rect. -/
def exResp (click dragS dragC dragR : Bool) (pos : Option Vec2)
    (delta : Vec2) : ResponseInput :=
  { clicked := click, drag_started := dragS, dragged := dragC,
    drag_released := dragR, hover_pos := pos, drag_delta := delta,
    rect := exRect }

/-- The three-node example graph of the repository test: nodes at (0,0),
(10,10), (20,20), radius 5, three edges. -/
def exGraph : GraphQ :=
  ⟨[exNode ⟨0, 0⟩ false, exNode ⟨10, 10⟩ false, exNode ⟨20, 20⟩ false],
   [⟨0, 1, default⟩, ⟨0, 2, default⟩, ⟨1, 2, default⟩]⟩

/-- Two selected nodes joined by a selected edge. -/
def exGraphSel : GraphQ :=
  ⟨[exNode ⟨0, 0⟩ true, exNode ⟨100, 0⟩ true],
   [⟨0, 1, ⟨true, false, false⟩⟩]⟩

/-- Two selected nodes plus a selected edge between two other,
unselected, nodes. -/
def exGraphStray : GraphQ :=
  ⟨[exNode ⟨0, 0⟩ true, exNode ⟨100, 0⟩ true, exNode ⟨200, 0⟩ false,
    exNode ⟨300, 0⟩ false],
   [⟨2, 3, ⟨true, false, false⟩⟩]⟩

/-! Basic lemmas about indexed access and updates. -/

theorem Vec2.ext_xy {a b : Vec2} (hx : a.x = b.x) (hy : a.y = b.y) :
    a = b := by
  cases a; cases b; simp_all

theorem updNode_edges (g : GraphQ) (j : Nat) (f : NodeW → NodeW) :
    (updNode g j f).edges = g.edges := rfl

theorem updEdge_nodes (g : GraphQ) (j : Nat) (f : EdgeW → EdgeW) :
    (updEdge g j f).nodes = g.nodes := rfl

theorem updNode_length (g : GraphQ) (j : Nat) (f : NodeW → NodeW) :
    (updNode g j f).nodes.length = g.nodes.length := by
  simp [updNode]

theorem getNode_congr {g g' : GraphQ} (h : g'.nodes = g.nodes) (i : Nat) :
    getNode g' i = getNode g i := by
  simp [getNode, h]

theorem getEdge_congr {g g' : GraphQ} (h : g'.edges = g.edges) (i : Nat) :
    getEdge g' i = getEdge g i := by
  simp [getEdge, h]

theorem getNode_updNode_ne (g : GraphQ) (j i : Nat) (f : NodeW → NodeW)
    (h : i ≠ j) : getNode (updNode g j f) i = getNode g i := by
  simp [getNode, updNode, List.getElem?_set_ne (Ne.symm h)]

theorem getNode_updNode_self (g : GraphQ) (j : Nat) (f : NodeW → NodeW) :
    getNode (updNode g j f) j =
      if j < g.nodes.length then f (getNode g j) else default := by
  by_cases h : j < g.nodes.length
  · simp [getNode, updNode, List.getElem?_set_eq_of_lt _ h, h]
  · have h2 : g.nodes.length ≤ j := Nat.le_of_not_lt h
    simp [getNode, updNode, h, List.getElem?_set_self',
      List.getElem?_eq_none h2]

theorem getEdge_updEdge_ne (g : GraphQ) (j i : Nat) (f : EdgeW → EdgeW)
    (h : i ≠ j) : getEdge (updEdge g j f) i = getEdge g i := by
  simp [getEdge, updEdge, List.getElem?_set_ne (Ne.symm h)]

theorem getEdge_updEdge_self (g : GraphQ) (j : Nat) (f : EdgeW → EdgeW) :
    getEdge (updEdge g j f) j =
      if j < g.edges.length then f (getEdge g j) else default := by
  by_cases h : j < g.edges.length
  · simp [getEdge, updEdge, List.getElem?_set_eq_of_lt _ h, h]
  · have h2 : g.edges.length ≤ j := Nat.le_of_not_lt h
    simp [getEdge, updEdge, h, List.getElem?_set_self',
      List.getElem?_eq_none h2]

/-! Claim C10: bounding_rect on an empty graph. -/

/-- C10: for a graph with no nodes, bounding_rect does not fail and
returns the inverted rectangle whose min is (f32::MAX, f32::MAX) and
whose max is (f32::MIN, f32::MIN), the untouched initial fold values. -/
theorem C10_bounding_rect_empty (g : GraphQ) (h : g.nodes = []) :
    bounding_rect g = ⟨⟨fMAX, fMAX⟩, ⟨fMIN, fMIN⟩⟩ := by
  simp [bounding_rect, h]

/-- Witness for C10 at the concrete empty graph. -/
theorem C10_bounding_rect_empty_witness :
    bounding_rect ⟨[], []⟩ = ⟨⟨fMAX, fMAX⟩, ⟨fMIN, fMIN⟩⟩ :=
  C10_bounding_rect_empty ⟨[], []⟩ rfl

/-! Claim C6: clicking an already-selected node toggles it off. -/

/-- C6: with node_select enabled (multiselect irrelevant), clicking a node
whose selected flag is true sets it to false and emits exactly one
nodeSelected change for that index with old = true, new = false; the
resulting graph differs from the input only at that node's selected
flag. -/
theorem C6_click_selected_node_toggles_off (g : GraphQ)
    (si : SettingsInteraction) (idx : Nat) (st : FrameStateQ)
    (hs : si.node_select = true)
    (hsel : (getNode g idx).selected = true) :
    handle_node_click g si idx st =
      (updNode g idx (fun n => { n with selected := false }),
       [Change.nodeSelected idx true false]) := by
  simp [handle_node_click, hs, hsel, set_node_selected, updNode]

/-- Witness for C6: a two-node graph with node 1 selected; clicking node 1
deselects exactly it with one change. -/
theorem C6_click_selected_node_toggles_off_witness :
    handle_node_click ⟨[exNode ⟨0, 0⟩ false, exNode ⟨10, 0⟩ true], []⟩
        exSettings 1 ⟨none, none⟩ =
      ({ nodes := [exNode ⟨0, 0⟩ false,
                   { exNode ⟨10, 0⟩ true with selected := false }],
         edges := [] },
       [Change.nodeSelected 1 true false]) := by
  have h := C6_click_selected_node_toggles_off
    ⟨[exNode ⟨0, 0⟩ false, exNode ⟨10, 0⟩ true], []⟩ exSettings 1
    ⟨none, none⟩ rfl rfl
  rw [h]
  norm_num [updNode, getNode, exNode]

/-! Claim C7: drag moves the node by drag_delta / zoom. -/

/-- C7: while a drag continues (not starting, not releasing) with a
recorded dragged node, that node's location is translated by exactly the
raw drag delta divided by the current zoom, and exactly one nodeLocation
change is emitted carrying the old and the new location. -/
theorem C7_drag_moves_node_by_delta_over_zoom (g : GraphQ)
    (resp : ResponseInput) (si : SettingsInteraction) (st : FrameStateQ)
    (m : Metadata) (idx : Nat)
    (hd : si.node_drag = true)
    (h1 : resp.drag_started = false)
    (h2 : resp.dragged = true)
    (h3 : resp.drag_released = false)
    (hst : st.dragged = some idx) :
    handle_nodes_drags g resp si st m =
      (updNode g idx
         (fun n => { n with location := n.location + resp.drag_delta / m.zoom }),
       [Change.nodeLocation idx (getNode g idx).location
          ((getNode g idx).location + resp.drag_delta / m.zoom)]) := by
  simp [handle_nodes_drags, hd, h1, h2, h3, hst, move_node, updNode]

/-- Witness for C7 at zoom = 2 with raw drag delta (20, 10): the node at
(1, 2) moves to exactly (11, 7). -/
theorem C7_drag_moves_node_by_delta_over_zoom_witness :
    handle_nodes_drags ⟨[exNode ⟨1, 2⟩ false], []⟩
        (exResp false false true false none ⟨20, 10⟩) exSettings
        ⟨some 0, none⟩ { exMeta with zoom := 2 } =
      ({ nodes := [{ exNode ⟨1, 2⟩ false with location := ⟨11, 7⟩ }],
         edges := [] },
       [Change.nodeLocation 0 ⟨1, 2⟩ ⟨11, 7⟩]) := by
  have h := C7_drag_moves_node_by_delta_over_zoom ⟨[exNode ⟨1, 2⟩ false], []⟩
    (exResp false false true false none ⟨20, 10⟩) exSettings
    ⟨some 0, none⟩ { exMeta with zoom := 2 } 0 rfl rfl rfl rfl rfl
  rw [h]
  norm_num [updNode, getNode, exNode, exMeta, exResp, Vec2.add_def, Vec2.div_def]

/-! Claim C1: anchored zoom. -/

/-- C1 counterexample: with zoom 1, pan 0 and the anchor inside the rect,
the claimed invariant screenToGraph_new(p) = screenToGraph_old(p) fails
(1) at zoom delta -1 (the new zoom is 0), and (2) for a rect whose origin
is not (0,0) even at delta 1, because the source takes the anchor
relative to the rect origin while screenToGraph consumes absolute screen
coordinates. -/
theorem C1_zoom_anchor_cex :
    screenToGraph (zoom ⟨⟨0, 0⟩, ⟨100, 100⟩⟩ (-1) (some ⟨10, 10⟩) exMeta)
        ⟨10, 10⟩ ≠ screenToGraph exMeta ⟨10, 10⟩ ∧
    screenToGraph (zoom ⟨⟨50, 50⟩, ⟨150, 150⟩⟩ 1 (some ⟨60, 60⟩) exMeta)
        ⟨60, 60⟩ ≠ screenToGraph exMeta ⟨60, 60⟩ := by
  constructor
  · simp [screenToGraph, zoom, exMeta, Vec2.sub_def, Vec2.add_def,
      Vec2.mul_def, Vec2.div_def]
  · simp [screenToGraph, zoom, exMeta, Vec2.sub_def, Vec2.add_def,
      Vec2.mul_def, Vec2.div_def]
    norm_num

/-- C1 (amended): for every metadata with zoom ≠ 0, every anchor point p
and every delta with 1 + delta ≠ 0, the graph-space point under the
anchor measured relative to the widget rect origin (the coordinates the
zoom operation actually works in) is the same before and after the
anchored zoom. -/
theorem C1_zoom_anchor_preserving (m : Metadata) (rect : RectQ) (p : Vec2)
    (delta : ℚ) (hz : m.zoom ≠ 0) (hd : 1 + delta ≠ 0) :
    screenToGraph (zoom rect delta (some p) m) (p - rect.min) =
      screenToGraph m (p - rect.min) := by
  apply Vec2.ext_xy <;>
  · simp only [screenToGraph, zoom, Vec2.sub_def, Vec2.add_def,
      Vec2.mul_def, Vec2.div_def]
    field_simp
    ring

/-- Witness for C1 at zoom 1, pan 0, anchor (10,10), delta 1/2. -/
theorem C1_zoom_anchor_preserving_witness :
    screenToGraph (zoom exRect (1 / 2) (some ⟨10, 10⟩) exMeta)
        ((⟨10, 10⟩ : Vec2) - exRect.min) =
      screenToGraph exMeta ((⟨10, 10⟩ : Vec2) - exRect.min) :=
  C1_zoom_anchor_preserving exMeta exRect ⟨10, 10⟩ (1 / 2)
    (by norm_num [exMeta]) (by norm_num)

/-! Claim C4: positivity of zoom under the viewport operations. -/

/-- The zoom stored by fit_to_screen is exactly the minimum of the
per-axis canvas / padded-bounds ratios, provided the old zoom is
nonzero. -/
theorem fit_to_screen_zoom_eq (rect : RectQ) (sn : SettingsNavigation)
    (m : Metadata) (hz : m.zoom ≠ 0) :
    (fit_to_screen rect sn m).zoom =
      min (rect.size.x /
            ((m.graph_bounds.max.x - m.graph_bounds.min.x) * (1 + sn.screen_padding)))
        (rect.size.y /
            ((m.graph_bounds.max.y - m.graph_bounds.min.y) * (1 + sn.screen_padding))) := by
  simp only [fit_to_screen, zoom, RectQ.size, Vec2.sub_def, Vec2.mul_def]
  have h1 : ∀ x : ℚ, 1 + (x / m.zoom - 1) = x / m.zoom := by intro x; ring
  rw [h1, mul_comm, div_mul_cancel₀ _ hz]

/-- fit_to_screen keeps zoom positive when the canvas and the padded
bounds have positive sizes. -/
theorem fit_to_screen_zoom_pos (rect : RectQ) (sn : SettingsNavigation)
    (m : Metadata) (hz : 0 < m.zoom)
    (hcx : 0 < rect.size.x) (hcy : 0 < rect.size.y)
    (hw : 0 < (m.graph_bounds.max.x - m.graph_bounds.min.x) * (1 + sn.screen_padding))
    (hh : 0 < (m.graph_bounds.max.y - m.graph_bounds.min.y) * (1 + sn.screen_padding)) :
    0 < (fit_to_screen rect sn m).zoom := by
  rw [fit_to_screen_zoom_eq rect sn m (ne_of_gt hz)]
  exact lt_min (div_pos hcx hw) (div_pos hcy hh)

/-- C4 counterexample: the zoom operation accepts delta = -2 and turns a
positive zoom (1) into a negative one (-1), so the invariant zoom > 0 is
not preserved by every accepted input. -/
theorem C4_zoom_positive_cex :
    0 < exMeta.zoom ∧ (zoom exRect (-2) none exMeta).zoom = -1 := by
  constructor
  · norm_num [exMeta]
  · norm_num [zoom, exMeta, exRect]

/-- C4 (amended): zoom > 0 is preserved by the anchored zoom whenever the
delta is > -1; by handle_zoom whenever |zoom_step| < 1 (any frame input);
by fit_to_screen and fit_if_first whenever the canvas and the padded
bounds have positive sizes; and by handle_pan unconditionally. -/
theorem C4_zoom_positive_preserved :
    (∀ (rect : RectQ) (delta : ℚ) (c : Option Vec2) (m : Metadata),
        0 < m.zoom → -1 < delta → 0 < (zoom rect delta c m).zoom) ∧
    (∀ (d : ℚ) (hover : Option Vec2) (rect : RectQ)
        (sn : SettingsNavigation) (m : Metadata),
        0 < m.zoom → -1 < sn.zoom_step → sn.zoom_step < 1 →
        0 < (handle_zoom d hover rect sn m).zoom) ∧
    (∀ (rect : RectQ) (sn : SettingsNavigation) (m : Metadata),
        0 < m.zoom → 0 < rect.size.x → 0 < rect.size.y →
        0 < (m.graph_bounds.max.x - m.graph_bounds.min.x) * (1 + sn.screen_padding) →
        0 < (m.graph_bounds.max.y - m.graph_bounds.min.y) * (1 + sn.screen_padding) →
        0 < (fit_to_screen rect sn m).zoom) ∧
    (∀ (resp : ResponseInput) (sn : SettingsNavigation) (st : FrameStateQ)
        (m : Metadata), 0 < m.zoom → 0 < (handle_pan resp sn st m).zoom) ∧
    (∀ (g : GraphQ) (rect : RectQ) (sn : SettingsNavigation) (m : Metadata),
        0 < m.zoom → 0 < rect.size.x → 0 < rect.size.y →
        0 < ((bounding_rect g).max.x - (bounding_rect g).min.x) * (1 + sn.screen_padding) →
        0 < ((bounding_rect g).max.y - (bounding_rect g).min.y) * (1 + sn.screen_padding) →
        0 < (fit_if_first g rect sn m).zoom) := by
  refine ⟨?_, ?_, ?_, ?_, ?_⟩
  · intro rect delta c m hm hd
    simp only [zoom]
    have : 0 < 1 + delta := by linarith
    positivity
  · intro d hover rect sn m hm h1 h2
    simp only [handle_zoom]
    split
    · exact hm
    · split
      · exact hm
      · simp only [zoom, qsignum]
        have : 0 < 1 + sn.zoom_step * (if 1 - d < 0 then (-1 : ℚ) else 1) := by
          split <;> linarith
        positivity
  · intro rect sn m hm hcx hcy hw hh
    exact fit_to_screen_zoom_pos rect sn m hm hcx hcy hw hh
  · intro resp sn st m hm
    simp only [handle_pan]
    split
    · exact hm
    · split <;> exact hm
  · intro g rect sn m hm hcx hcy hw hh
    simp only [fit_if_first]
    split
    · exact hm
    · exact fit_to_screen_zoom_pos rect sn
        { m with graph_bounds := bounding_rect g } hm hcx hcy hw hh

/-- Witness for C4 at concrete inputs: each preserved case instantiated. -/
theorem C4_zoom_positive_preserved_witness :
    0 < (zoom exRect (1 / 2) none exMeta).zoom ∧
    0 < (handle_zoom 2 none exRect exNav exMeta).zoom ∧
    0 < (fit_to_screen exRect exNav
          { exMeta with graph_bounds := ⟨⟨0, 0⟩, ⟨10, 10⟩⟩ }).zoom ∧
    0 < (handle_pan (exResp false false true false none ⟨3, 4⟩) exNav
          ⟨none, none⟩ exMeta).zoom ∧
    0 < (fit_if_first exGraph exRect exNav
          { exMeta with first_frame := true }).zoom := by
  refine ⟨?_, ?_, ?_, ?_, ?_⟩
  · exact C4_zoom_positive_preserved.1 exRect (1 / 2) none exMeta
      (by norm_num [exMeta]) (by norm_num)
  · exact C4_zoom_positive_preserved.2.1 2 none exRect exNav exMeta
      (by norm_num [exMeta]) (by norm_num [exNav]) (by norm_num [exNav])
  · exact C4_zoom_positive_preserved.2.2.1 exRect exNav _
      (by norm_num [exMeta]) (by norm_num [exRect, RectQ.size, Vec2.sub_def])
      (by norm_num [exRect, RectQ.size, Vec2.sub_def])
      (by norm_num [exMeta, exNav]) (by norm_num [exMeta, exNav])
  · exact C4_zoom_positive_preserved.2.2.2.1 _ exNav ⟨none, none⟩ exMeta
      (by norm_num [exMeta])
  · exact C4_zoom_positive_preserved.2.2.2.2 exGraph exRect exNav _
      (by norm_num [exMeta]) (by norm_num [exRect, RectQ.size, Vec2.sub_def])
      (by norm_num [exRect, RectQ.size, Vec2.sub_def])
      (by norm_num [bounding_rect, brStep, exGraph, exNode, exNav, fMAX, fMIN])
      (by norm_num [bounding_rect, brStep, exGraph, exNode, exNav, fMAX, fMIN])

/-! Claim C5: fit_to_screen centers the bounds and fills one axis. -/

/-- C5: with a nonzero starting zoom, after fit_to_screen the new zoom is
the minimum of the per-axis ratios canvas_size / (bounds_size *
(1 + screen_padding)); the stored bounding box center maps under the new
pan/zoom exactly to the rect center; and when both padded dimensions are
positive, the new zoom times one of the padded dimensions equals the
corresponding canvas dimension exactly. -/
theorem C5_fit_to_screen_spec (rect : RectQ) (sn : SettingsNavigation)
    (m : Metadata) (hz : m.zoom ≠ 0) :
    (fit_to_screen rect sn m).zoom =
      min (rect.size.x /
            ((m.graph_bounds.max.x - m.graph_bounds.min.x) * (1 + sn.screen_padding)))
        (rect.size.y /
            ((m.graph_bounds.max.y - m.graph_bounds.min.y) * (1 + sn.screen_padding))) ∧
    graphToScreen (fit_to_screen rect sn m)
        ((m.graph_bounds.min + m.graph_bounds.max) / (2 : ℚ)) = rect.center ∧
    (0 < (m.graph_bounds.max.x - m.graph_bounds.min.x) * (1 + sn.screen_padding) →
     0 < (m.graph_bounds.max.y - m.graph_bounds.min.y) * (1 + sn.screen_padding) →
     (fit_to_screen rect sn m).zoom *
         ((m.graph_bounds.max.x - m.graph_bounds.min.x) * (1 + sn.screen_padding)) =
           rect.size.x ∨
     (fit_to_screen rect sn m).zoom *
         ((m.graph_bounds.max.y - m.graph_bounds.min.y) * (1 + sn.screen_padding)) =
           rect.size.y) := by
  refine ⟨fit_to_screen_zoom_eq rect sn m hz, ?_, ?_⟩
  · apply Vec2.ext_xy <;>
    · simp only [graphToScreen, fit_to_screen, zoom, RectQ.center, RectQ.size,
        Vec2.sub_def, Vec2.add_def, Vec2.mul_def, Vec2.div_def]
      field_simp
      try ring
  · intro hw hh
    rw [fit_to_screen_zoom_eq rect sn m hz]
    rcases le_total
        (rect.size.x /
          ((m.graph_bounds.max.x - m.graph_bounds.min.x) * (1 + sn.screen_padding)))
        (rect.size.y /
          ((m.graph_bounds.max.y - m.graph_bounds.min.y) * (1 + sn.screen_padding)))
      with hle | hle
    · left
      rw [min_eq_left hle, div_mul_cancel₀ _ (ne_of_gt hw)]
    · right
      rw [min_eq_right hle, div_mul_cancel₀ _ (ne_of_gt hh)]

/-- Witness for C5 with bounds (0,0)-(10,10), padding 3/10, canvas
100x100. -/
theorem C5_fit_to_screen_spec_witness :
    ((fit_to_screen exRect exNav
        { exMeta with graph_bounds := ⟨⟨0, 0⟩, ⟨10, 10⟩⟩ }).zoom =
      min (exRect.size.x / ((10 - 0) * (1 + exNav.screen_padding)))
        (exRect.size.y / ((10 - 0) * (1 + exNav.screen_padding)))) ∧
    graphToScreen (fit_to_screen exRect exNav
        { exMeta with graph_bounds := ⟨⟨0, 0⟩, ⟨10, 10⟩⟩ })
        (((⟨0, 0⟩ : Vec2) + ⟨10, 10⟩) / (2 : ℚ)) = exRect.center := by
  have h := C5_fit_to_screen_spec exRect exNav
    { exMeta with graph_bounds := ⟨⟨0, 0⟩, ⟨10, 10⟩⟩ } (by norm_num [exMeta])
  exact ⟨h.1, h.2.1⟩

/-! Claim C8: bounding_rect is the tightest enclosing rectangle. -/

theorem if_lt_eq_min (a v : ℚ) : (if v < a then v else a) = min a v := by
  rw [min_def]; split_ifs <;> linarith

theorem if_gt_eq_max (a v : ℚ) : (if a < v then v else a) = max a v := by
  rw [max_def]; split_ifs <;> linarith

theorem brStep_eq (acc : ℚ × ℚ × ℚ × ℚ) (n : NodeW) :
    brStep acc n =
      (min acc.1 (n.location.x - n.radius),
       min acc.2.1 (n.location.y - n.radius),
       max acc.2.2.1 (n.location.x + n.radius),
       max acc.2.2.2 (n.location.y + n.radius)) := by
  obtain ⟨a, b, c, d⟩ := acc
  simp only [brStep, gt_iff_lt, if_lt_eq_min, if_gt_eq_max]

theorem foldl_brStep (l : List NodeW) (a b c d : ℚ) :
    l.foldl brStep (a, b, c, d) =
      (l.foldl (fun acc n => min acc (n.location.x - n.radius)) a,
       l.foldl (fun acc n => min acc (n.location.y - n.radius)) b,
       l.foldl (fun acc n => max acc (n.location.x + n.radius)) c,
       l.foldl (fun acc n => max acc (n.location.y + n.radius)) d) := by
  induction l generalizing a b c d with
  | nil => rfl
  | cons hd t ih =>
    simp only [List.foldl_cons, brStep_eq]
    exact ih _ _ _ _

/-- bounding_rect componentwise: each component is a one-dimensional
min/max fold. -/
theorem bounding_rect_components (g : GraphQ) :
    bounding_rect g =
      ⟨⟨g.nodes.foldl (fun acc n => min acc (n.location.x - n.radius)) fMAX,
        g.nodes.foldl (fun acc n => min acc (n.location.y - n.radius)) fMAX⟩,
       ⟨g.nodes.foldl (fun acc n => max acc (n.location.x + n.radius)) fMIN,
        g.nodes.foldl (fun acc n => max acc (n.location.y + n.radius)) fMIN⟩⟩ := by
  simp only [bounding_rect, foldl_brStep]

theorem foldl_min_le_init (f : NodeW → ℚ) (l : List NodeW) (a : ℚ) :
    l.foldl (fun acc n => min acc (f n)) a ≤ a := by
  induction l generalizing a with
  | nil => exact le_refl a
  | cons hd t ih =>
    exact le_trans (ih (min a (f hd))) (min_le_left _ _)

theorem foldl_min_le (f : NodeW → ℚ) (l : List NodeW) (a : ℚ) :
    ∀ x ∈ l, l.foldl (fun acc n => min acc (f n)) a ≤ f x := by
  induction l generalizing a with
  | nil => intro x hx; cases hx
  | cons hd t ih =>
    intro x hx
    rcases List.mem_cons.mp hx with h | h
    · subst h
      exact le_trans (foldl_min_le_init f t _) (min_le_right _ _)
    · exact ih _ x h

theorem foldl_min_attained (f : NodeW → ℚ) (l : List NodeW) (a : ℚ) :
    l.foldl (fun acc n => min acc (f n)) a = a ∨
      ∃ x ∈ l, l.foldl (fun acc n => min acc (f n)) a = f x := by
  induction l generalizing a with
  | nil => left; rfl
  | cons hd t ih =>
    rcases ih (min a (f hd)) with h | ⟨x, hx, hfx⟩
    · rcases min_cases a (f hd) with ⟨he, _⟩ | ⟨he, _⟩
      · left; simpa [he] using h
      · right; exact ⟨hd, List.mem_cons_self _ _, by simpa [he] using h⟩
    · right; exact ⟨x, List.mem_cons_of_mem _ hx, hfx⟩

theorem foldl_max_init_le (f : NodeW → ℚ) (l : List NodeW) (a : ℚ) :
    a ≤ l.foldl (fun acc n => max acc (f n)) a := by
  induction l generalizing a with
  | nil => exact le_refl a
  | cons hd t ih =>
    exact le_trans (le_max_left _ _) (ih (max a (f hd)))

theorem foldl_le_max (f : NodeW → ℚ) (l : List NodeW) (a : ℚ) :
    ∀ x ∈ l, f x ≤ l.foldl (fun acc n => max acc (f n)) a := by
  induction l generalizing a with
  | nil => intro x hx; cases hx
  | cons hd t ih =>
    intro x hx
    rcases List.mem_cons.mp hx with h | h
    · subst h
      exact le_trans (le_max_right _ _) (foldl_max_init_le f t _)
    · exact ih _ x h

theorem foldl_max_attained (f : NodeW → ℚ) (l : List NodeW) (a : ℚ) :
    l.foldl (fun acc n => max acc (f n)) a = a ∨
      ∃ x ∈ l, l.foldl (fun acc n => max acc (f n)) a = f x := by
  induction l generalizing a with
  | nil => left; rfl
  | cons hd t ih =>
    rcases ih (max a (f hd)) with h | ⟨x, hx, hfx⟩
    · rcases max_cases a (f hd) with ⟨he, _⟩ | ⟨he, _⟩
      · left; simpa [he] using h
      · right; exact ⟨hd, List.mem_cons_self _ _, by simpa [he] using h⟩
    · right; exact ⟨x, List.mem_cons_of_mem _ hx, hfx⟩

/-- C8: for a non-empty graph whose node extents are within the f32
range, bounding_rect is the tightest axis-aligned rectangle containing
every node circle: each rect component bounds the corresponding extent of
every node, and each component is attained by some node. -/
theorem C8_bounding_rect_tightest (g : GraphQ) (hne : g.nodes ≠ [])
    (hbound : ∀ n ∈ g.nodes,
      n.location.x - n.radius ≤ fMAX ∧ fMIN ≤ n.location.x + n.radius ∧
      n.location.y - n.radius ≤ fMAX ∧ fMIN ≤ n.location.y + n.radius) :
    (∀ n ∈ g.nodes,
      (bounding_rect g).min.x ≤ n.location.x - n.radius ∧
      (bounding_rect g).min.y ≤ n.location.y - n.radius ∧
      n.location.x + n.radius ≤ (bounding_rect g).max.x ∧
      n.location.y + n.radius ≤ (bounding_rect g).max.y) ∧
    (∃ n ∈ g.nodes, (bounding_rect g).min.x = n.location.x - n.radius) ∧
    (∃ n ∈ g.nodes, (bounding_rect g).min.y = n.location.y - n.radius) ∧
    (∃ n ∈ g.nodes, (bounding_rect g).max.x = n.location.x + n.radius) ∧
    (∃ n ∈ g.nodes, (bounding_rect g).max.y = n.location.y + n.radius) := by
  obtain ⟨n0, hn0⟩ : ∃ n, n ∈ g.nodes := by
    cases hl : g.nodes with
    | nil => exact absurd hl hne
    | cons a t => exact ⟨a, List.mem_cons_self _ _⟩
  rw [bounding_rect_components]
  refine ⟨?_, ?_, ?_, ?_, ?_⟩
  · intro n hn
    exact ⟨foldl_min_le _ _ _ n hn, foldl_min_le _ _ _ n hn,
      foldl_le_max _ _ _ n hn, foldl_le_max _ _ _ n hn⟩
  · rcases foldl_min_attained (fun n => n.location.x - n.radius) g.nodes fMAX
      with h | ⟨x, hx, he⟩
    · refine ⟨n0, hn0, le_antisymm (foldl_min_le _ _ _ n0 hn0) ?_⟩
      rw [h]; exact (hbound n0 hn0).1
    · exact ⟨x, hx, he⟩
  · rcases foldl_min_attained (fun n => n.location.y - n.radius) g.nodes fMAX
      with h | ⟨x, hx, he⟩
    · refine ⟨n0, hn0, le_antisymm (foldl_min_le _ _ _ n0 hn0) ?_⟩
      rw [h]; exact (hbound n0 hn0).2.2.1
    · exact ⟨x, hx, he⟩
  · rcases foldl_max_attained (fun n => n.location.x + n.radius) g.nodes fMIN
      with h | ⟨x, hx, he⟩
    · refine ⟨n0, hn0, le_antisymm ?_ (foldl_le_max _ _ _ n0 hn0)⟩
      rw [h]; exact (hbound n0 hn0).2.1
    · exact ⟨x, hx, he⟩
  · rcases foldl_max_attained (fun n => n.location.y + n.radius) g.nodes fMIN
      with h | ⟨x, hx, he⟩
    · refine ⟨n0, hn0, le_antisymm ?_ (foldl_le_max _ _ _ n0 hn0)⟩
      rw [h]; exact (hbound n0 hn0).2.2.2
    · exact ⟨x, hx, he⟩

/-- Witness for C8 at the repository test graph (nodes at (0,0), (10,10),
(20,20), all radius 5): the tightness properties hold and the rect is
exactly min (-5,-5), max (25,25). -/
theorem C8_bounding_rect_tightest_witness :
    ((∀ n ∈ exGraph.nodes,
      (bounding_rect exGraph).min.x ≤ n.location.x - n.radius ∧
      (bounding_rect exGraph).min.y ≤ n.location.y - n.radius ∧
      n.location.x + n.radius ≤ (bounding_rect exGraph).max.x ∧
      n.location.y + n.radius ≤ (bounding_rect exGraph).max.y) ∧
    (∃ n ∈ exGraph.nodes,
      (bounding_rect exGraph).min.x = n.location.x - n.radius) ∧
    (∃ n ∈ exGraph.nodes,
      (bounding_rect exGraph).min.y = n.location.y - n.radius) ∧
    (∃ n ∈ exGraph.nodes,
      (bounding_rect exGraph).max.x = n.location.x + n.radius) ∧
    (∃ n ∈ exGraph.nodes,
      (bounding_rect exGraph).max.y = n.location.y + n.radius)) ∧
    bounding_rect exGraph = ⟨⟨-5, -5⟩, ⟨25, 25⟩⟩ := by
  constructor
  · exact C8_bounding_rect_tightest exGraph (by simp [exGraph])
      (by norm_num [exGraph, exNode, List.forall_mem_cons, fMAX, fMIN])
  · rw [bounding_rect_components]
    norm_num [exGraph, exNode, fMAX, fMIN, min_def, max_def]

/-! Claim C3: drag start marks and records the hit node; release clears. -/

theorem getNode_mem (g : GraphQ) (idx : Nat) (h : idx < g.nodes.length) :
    getNode g idx ∈ g.nodes := by
  simp only [getNode, List.get?_eq_getElem?, List.getElem?_eq_getElem h,
    Option.getD_some]
  exact List.getElem_mem h

theorem find_dragged_from (l : List NodeW) (x : NodeW)
    (hx : x.dragged = true) :
    ∀ (k idx : Nat), idx < l.length → (∀ n ∈ l, n.dragged = false) →
      ((l.set idx x).enumFrom k).find? (fun p => p.2.dragged) =
        some (k + idx, x) := by
  induction l with
  | nil =>
    intro k idx h
    cases h
  | cons hd t ih =>
    intro k idx hlt hall
    cases idx with
    | zero =>
      simp only [List.set]
      rw [show List.enumFrom k (x :: t) = (k, x) :: List.enumFrom (k + 1) t
        from rfl]
      rw [List.find?_cons]
      simp [hx]
    | succ m =>
      simp only [List.set]
      rw [show List.enumFrom k (hd :: t.set m x) =
        (k, hd) :: List.enumFrom (k + 1) (t.set m x) from rfl]
      rw [List.find?_cons]
      have hhd : hd.dragged = false := hall hd (List.mem_cons_self _ _)
      simp only [hhd]
      rw [ih (k + 1) m (Nat.lt_of_succ_lt_succ hlt)
        (fun n hn => hall n (List.mem_cons_of_mem _ hn))]
      congr 2
      omega

/-- After marking node idx dragged in a graph where no node was dragged,
the frame-state scan records exactly idx. -/
theorem recordDragged_after_set (g : GraphQ) (idx : Nat) (f : NodeW → NodeW)
    (hf : ∀ n, (f n).dragged = true)
    (h : idx < g.nodes.length)
    (hall : ∀ n ∈ g.nodes, n.dragged = false) :
    recordDragged (updNode g idx f) = some idx := by
  simp only [recordDragged, updNode, List.enum]
  rw [find_dragged_from g.nodes (f (getNode g idx)) (hf _) 0 idx h hall]
  simp

/-- C3: (1) on drag start (no continuing or releasing drag) with a node
hit at the hover position and no node currently dragged, the hit node is
marked dragged with exactly one nodeDragged change (false to true) and
the frame-state scan then records that node's index as the dragged node;
(2) on drag release with a recorded dragged node whose flag is set, that
node's dragged flag is cleared with exactly one nodeDragged change (true
to false). -/
theorem C3_drag_start_and_release :
    (∀ (g : GraphQ) (r : ResponseInput) (si : SettingsInteraction)
        (st : FrameStateQ) (m : Metadata) (idx : Nat) (nd : NodeW) (pos : Vec2),
        si.node_drag = true → r.drag_started = true → r.dragged = false →
        r.drag_released = false → r.hover_pos = some pos →
        node_by_pos g m pos = some (idx, nd) →
        idx < g.nodes.length → (∀ n ∈ g.nodes, n.dragged = false) →
        handle_nodes_drags g r si st m =
          (updNode g idx (fun n => { n with dragged := true }),
           [Change.nodeDragged idx false true]) ∧
        recordDragged (handle_nodes_drags g r si st m).1 = some idx) ∧
    (∀ (g : GraphQ) (r : ResponseInput) (si : SettingsInteraction)
        (st : FrameStateQ) (m : Metadata) (idx : Nat),
        si.node_drag = true → r.drag_started = false → r.dragged = false →
        r.drag_released = true → st.dragged = some idx →
        (getNode g idx).dragged = true →
        handle_nodes_drags g r si st m =
          (updNode g idx (fun n => { n with dragged := false }),
           [Change.nodeDragged idx true false])) := by
  constructor
  · intro g r si st m idx nd pos hd h1 h2 h3 hh hhit hv hall
    have hold : (getNode g idx).dragged = false :=
      hall _ (getNode_mem g idx hv)
    have heq : handle_nodes_drags g r si st m =
        (updNode g idx (fun n => { n with dragged := true }),
         [Change.nodeDragged idx false true]) := by
      simp [handle_nodes_drags, hd, h1, h2, h3, hh, hhit, set_dragged, hold]
    refine ⟨heq, ?_⟩
    rw [heq]
    exact recordDragged_after_set g idx _ (fun n => rfl) hv hall
  · intro g r si st m idx hd h1 h2 h3 hst hdr
    simp [handle_nodes_drags, hd, h1, h2, h3, hst, set_dragged, hdr]

/-- Witness for C3: a one-node graph; drag starting at (1,1) hits node 0,
marks it dragged with one change, and the scan records index 0; then a
release with node 0 recorded clears the flag with one change. -/
theorem C3_drag_start_and_release_witness :
    (handle_nodes_drags ⟨[exNode ⟨0, 0⟩ false], []⟩
        (exResp false true false false (some ⟨1, 1⟩) ⟨0, 0⟩) exSettings
        ⟨none, none⟩ exMeta =
      (updNode ⟨[exNode ⟨0, 0⟩ false], []⟩ 0
          (fun n => { n with dragged := true }),
       [Change.nodeDragged 0 false true]) ∧
     recordDragged (handle_nodes_drags ⟨[exNode ⟨0, 0⟩ false], []⟩
        (exResp false true false false (some ⟨1, 1⟩) ⟨0, 0⟩) exSettings
        ⟨none, none⟩ exMeta).1 = some 0) ∧
    handle_nodes_drags ⟨[{ exNode ⟨0, 0⟩ false with dragged := true }], []⟩
        (exResp false false false true none ⟨0, 0⟩) exSettings
        ⟨some 0, none⟩ exMeta =
      (updNode ⟨[{ exNode ⟨0, 0⟩ false with dragged := true }], []⟩ 0
          (fun n => { n with dragged := false }),
       [Change.nodeDragged 0 true false]) := by
  constructor
  · exact C3_drag_start_and_release.1 ⟨[exNode ⟨0, 0⟩ false], []⟩
      (exResp false true false false (some ⟨1, 1⟩) ⟨0, 0⟩) exSettings
      ⟨none, none⟩ exMeta 0 (exNode ⟨0, 0⟩ false) ⟨1, 1⟩ rfl rfl rfl rfl rfl
      (by norm_num [node_by_pos, exNode, exMeta, List.enum, List.enumFrom,
        List.find?_cons, Vec2.sub_def, Vec2.div_def])
      (by norm_num) (by simp [exNode])
  · exact C3_drag_start_and_release.2
      ⟨[{ exNode ⟨0, 0⟩ false with dragged := true }], []⟩
      (exResp false false false true none ⟨0, 0⟩) exSettings
      ⟨some 0, none⟩ exMeta 0 rfl rfl rfl rfl rfl rfl

/-! Claim C2: empty-space click deselects the selections elements. -/

theorem deselNodes_changes_length (g : GraphQ) (l : List Nat) :
    (deselNodes g l).2.length = l.length := by
  induction l generalizing g with
  | nil => rfl
  | cons j t ih => simp [deselNodes, ih]

theorem deselNodes_edges (g : GraphQ) (l : List Nat) :
    (deselNodes g l).1.edges = g.edges := by
  induction l generalizing g with
  | nil => rfl
  | cons j t ih => simp [deselNodes, set_node_selected, updNode, ih]

theorem deselEdges_changes_length (g : GraphQ) (l : List Nat) :
    (deselEdges g l).2.length = l.length := by
  induction l generalizing g with
  | nil => rfl
  | cons j t ih => simp [deselEdges, ih]

theorem deselEdges_nodes (g : GraphQ) (l : List Nat) :
    (deselEdges g l).1.nodes = g.nodes := by
  induction l generalizing g with
  | nil => rfl
  | cons j t ih => simp [deselEdges, set_edge_selected, updEdge, ih]

theorem processNode_clears (g : GraphQ) (j : Nat) :
    (getNode (updNode (updNode g j (fun n => { n with selected := false })) j
        (fun n => { n with selected_child := false, selected_parent := false }))
      j).selected = false ∧
    (getNode (updNode (updNode g j (fun n => { n with selected := false })) j
        (fun n => { n with selected_child := false, selected_parent := false }))
      j).selected_child = false ∧
    (getNode (updNode (updNode g j (fun n => { n with selected := false })) j
        (fun n => { n with selected_child := false, selected_parent := false }))
      j).selected_parent = false := by
  by_cases h : j < g.nodes.length
  · have h1 : j < (updNode g j
        (fun n => { n with selected := false })).nodes.length := by
      rw [updNode_length]; exact h
    rw [getNode_updNode_self, if_pos h1, getNode_updNode_self, if_pos h]
    exact ⟨rfl, rfl, rfl⟩
  · have h1 : ¬ j < (updNode g j
        (fun n => { n with selected := false })).nodes.length := by
      rw [updNode_length]; exact h
    rw [getNode_updNode_self, if_neg h1]
    exact ⟨rfl, rfl, rfl⟩

theorem deselNodes_clears_mono (l : List Nat) :
    ∀ (g : GraphQ) (i : Nat),
      ((getNode g i).selected = false ∧ (getNode g i).selected_child = false ∧
        (getNode g i).selected_parent = false) →
      (getNode (deselNodes g l).1 i).selected = false ∧
        (getNode (deselNodes g l).1 i).selected_child = false ∧
        (getNode (deselNodes g l).1 i).selected_parent = false := by
  induction l with
  | nil => intro g i h; exact h
  | cons j t ih =>
    intro g i h
    simp only [deselNodes, set_node_selected]
    by_cases hij : i = j
    · subst hij
      exact ih _ i (processNode_clears g i)
    · apply ih
      rw [getNode_updNode_ne _ _ _ _ hij, getNode_updNode_ne _ _ _ _ hij]
      exact h

theorem deselNodes_clears (l : List Nat) :
    ∀ (g : GraphQ) (i : Nat), i ∈ l →
      (getNode (deselNodes g l).1 i).selected = false ∧
        (getNode (deselNodes g l).1 i).selected_child = false ∧
        (getNode (deselNodes g l).1 i).selected_parent = false := by
  induction l with
  | nil => intro g i h; cases h
  | cons j t ih =>
    intro g i h
    simp only [deselNodes, set_node_selected]
    rcases List.mem_cons.mp h with h | h
    · subst h
      exact deselNodes_clears_mono t _ i (processNode_clears g i)
    · exact ih _ i h

theorem processEdge_clears (g : GraphQ) (j : Nat) :
    (getEdge (updEdge (updEdge g j (fun e => { e with selected := false })) j
        (fun e => { e with selected_child := false, selected_parent := false }))
      j).selected = false ∧
    (getEdge (updEdge (updEdge g j (fun e => { e with selected := false })) j
        (fun e => { e with selected_child := false, selected_parent := false }))
      j).selected_child = false ∧
    (getEdge (updEdge (updEdge g j (fun e => { e with selected := false })) j
        (fun e => { e with selected_child := false, selected_parent := false }))
      j).selected_parent = false := by
  by_cases h : j < g.edges.length
  · have h1 : j < (updEdge g j
        (fun e => { e with selected := false })).edges.length := by
      simp [updEdge]; exact h
    rw [getEdge_updEdge_self, if_pos h1, getEdge_updEdge_self, if_pos h]
    exact ⟨rfl, rfl, rfl⟩
  · have h1 : ¬ j < (updEdge g j
        (fun e => { e with selected := false })).edges.length := by
      simp [updEdge]; omega
    rw [getEdge_updEdge_self, if_neg h1]
    exact ⟨rfl, rfl, rfl⟩

theorem deselEdges_clears_mono (l : List Nat) :
    ∀ (g : GraphQ) (i : Nat),
      ((getEdge g i).selected = false ∧ (getEdge g i).selected_child = false ∧
        (getEdge g i).selected_parent = false) →
      (getEdge (deselEdges g l).1 i).selected = false ∧
        (getEdge (deselEdges g l).1 i).selected_child = false ∧
        (getEdge (deselEdges g l).1 i).selected_parent = false := by
  induction l with
  | nil => intro g i h; exact h
  | cons j t ih =>
    intro g i h
    simp only [deselEdges, set_edge_selected]
    by_cases hij : i = j
    · subst hij
      exact ih _ i (processEdge_clears g i)
    · apply ih
      rw [getEdge_updEdge_ne _ _ _ _ hij, getEdge_updEdge_ne _ _ _ _ hij]
      exact h

theorem deselEdges_clears (l : List Nat) :
    ∀ (g : GraphQ) (i : Nat), i ∈ l →
      (getEdge (deselEdges g l).1 i).selected = false ∧
        (getEdge (deselEdges g l).1 i).selected_child = false ∧
        (getEdge (deselEdges g l).1 i).selected_parent = false := by
  induction l with
  | nil => intro g i h; cases h
  | cons j t ih =>
    intro g i h
    simp only [deselEdges, set_edge_selected]
    rcases List.mem_cons.mp h with h | h
    · subst h
      exact deselEdges_clears_mono t _ i (processEdge_clears g i)
    · exact ih _ i h

/-- C2 counterexample: a graph with exactly 2 selected nodes and 1
selected edge, where the edge joins two other, unselected nodes. After
the frame precomputation, clicking empty space with select enabled emits
only 2 changes (not 3) and leaves the edge selected, because deselect_all
walks the frame Selections (selected roots and elements reached from
them), which never contain that edge. -/
theorem C2_empty_click_cex :
    (handle_click (precompute_state exGraphStray exSettings exStyle).1
        (exResp true false false false (some ⟨1000, 1000⟩) ⟨0, 0⟩) exSettings
        (precompute_state exGraphStray exSettings exStyle).2 exMeta).2.length
      = 2 ∧
    ¬ (handle_click (precompute_state exGraphStray exSettings exStyle).1
        (exResp true false false false (some ⟨1000, 1000⟩) ⟨0, 0⟩) exSettings
        (precompute_state exGraphStray exSettings exStyle).2 exMeta).2.length
      = 3 ∧
    (getEdge (handle_click (precompute_state exGraphStray exSettings exStyle).1
        (exResp true false false false (some ⟨1000, 1000⟩) ⟨0, 0⟩) exSettings
        (precompute_state exGraphStray exSettings exStyle).2 exMeta).1
      0).selected = true := by
  refine ⟨?_, ?_, ?_⟩ <;>
    norm_num [handle_click, precompute_state, exGraphStray, exSettings, exStyle,
      exResp, exRect, exMeta, exNode, edges_by_nodes, groupInsert, pairKey,
      reachedNodes, reachedEdges, withinHops, outNeighbors, inNeighbors,
      NodeW.reset_precalculated, EdgeW.reset_precalculated, updNode, updEdge,
      getNode, getEdge, List.filter, List.dedup, node_radius, node_by_pos,
      List.enum, List.enumFrom, List.find?_cons, deselect_all, deselNodes,
      deselEdges, set_node_selected, set_edge_selected, SelectionsQ.elements,
      Vec2.sub_def, Vec2.div_def]

/-- C2 (amended): on a click with no node hit, when select or multiselect
is enabled, every node and edge listed in the frame state's Selections
(the selected roots together with everything reached from them) has
selected, selected_child and selected_parent cleared, and exactly one
Change is emitted per listed element — even when its selected flag was
already false; selected elements outside the Selections are untouched.
With 2 selected nodes and 1 selected edge all contained in the
Selections, exactly 3 Changes are emitted. -/
theorem C2_empty_click_deselects_selections (g : GraphQ)
    (resp : ResponseInput) (si : SettingsInteraction) (st : FrameStateQ)
    (m : Metadata) (sel : SelectionsQ)
    (hc : resp.clicked = true)
    (hs : si.node_select = true ∨ si.node_multiselect = true)
    (hmiss : node_by_pos g m (resp.hover_pos.getD default) = none)
    (hst : st.selections = some sel) :
    (handle_click g resp si st m).2.length =
      sel.elements.1.length + sel.elements.2.length ∧
    (∀ i ∈ sel.elements.1,
      (getNode (handle_click g resp si st m).1 i).selected = false ∧
      (getNode (handle_click g resp si st m).1 i).selected_child = false ∧
      (getNode (handle_click g resp si st m).1 i).selected_parent = false) ∧
    (∀ i ∈ sel.elements.2,
      (getEdge (handle_click g resp si st m).1 i).selected = false ∧
      (getEdge (handle_click g resp si st m).1 i).selected_child = false ∧
      (getEdge (handle_click g resp si st m).1 i).selected_parent = false) := by
  have hclick : handle_click g resp si st m = deselect_all g st := by
    rcases hs with h | h <;> simp [handle_click, hc, h, hmiss]
  rw [hclick]
  simp only [deselect_all, hst]
  refine ⟨?_, ?_, ?_⟩
  · simp [deselNodes_changes_length, deselEdges_changes_length]
  · intro i hi
    have h2 := deselEdges_nodes (deselNodes g sel.elements.1).1 sel.elements.2
    rw [getNode_congr h2]
    exact deselNodes_clears sel.elements.1 g i hi
  · intro i hi
    exact deselEdges_clears sel.elements.2 _ i hi

/-- Witness for C2: 2 selected nodes joined by a selected edge at
selection depth 1; after the frame precomputation an empty-space click
emits exactly 3 changes and clears all three elements. -/
theorem C2_empty_click_deselects_selections_witness :
    (handle_click (precompute_state exGraphSel exSettings exStyle).1
        (exResp true false false false (some ⟨1000, 1000⟩) ⟨0, 0⟩) exSettings
        (precompute_state exGraphSel exSettings exStyle).2 exMeta).2.length
      = 3 ∧
    (getNode (handle_click (precompute_state exGraphSel exSettings exStyle).1
        (exResp true false false false (some ⟨1000, 1000⟩) ⟨0, 0⟩) exSettings
        (precompute_state exGraphSel exSettings exStyle).2 exMeta).1
      0).selected = false ∧
    (getNode (handle_click (precompute_state exGraphSel exSettings exStyle).1
        (exResp true false false false (some ⟨1000, 1000⟩) ⟨0, 0⟩) exSettings
        (precompute_state exGraphSel exSettings exStyle).2 exMeta).1
      1).selected = false ∧
    (getEdge (handle_click (precompute_state exGraphSel exSettings exStyle).1
        (exResp true false false false (some ⟨1000, 1000⟩) ⟨0, 0⟩) exSettings
        (precompute_state exGraphSel exSettings exStyle).2 exMeta).1
      0).selected = false := by
  have hsel : (precompute_state exGraphSel exSettings exStyle).2.selections =
      some ⟨[(0, [0, 1], [0]), (1, [1], [])]⟩ := by
    norm_num [precompute_state, exGraphSel, exSettings, exStyle,
      edges_by_nodes, groupInsert, pairKey, reachedNodes, reachedEdges,
      withinHops, outNeighbors, inNeighbors, exNode,
      NodeW.reset_precalculated, EdgeW.reset_precalculated, updNode, updEdge,
      getNode, List.filter, List.dedup, node_radius]
  have h := C2_empty_click_deselects_selections
    (precompute_state exGraphSel exSettings exStyle).1
    (exResp true false false false (some ⟨1000, 1000⟩) ⟨0, 0⟩) exSettings
    (precompute_state exGraphSel exSettings exStyle).2 exMeta
    ⟨[(0, [0, 1], [0]), (1, [1], [])]⟩ rfl (Or.inl rfl)
    (by norm_num [node_by_pos, precompute_state, exGraphSel, exSettings,
        exStyle, edges_by_nodes, groupInsert, pairKey, reachedNodes,
        reachedEdges, withinHops, outNeighbors, inNeighbors, exNode, exResp,
        exMeta, NodeW.reset_precalculated, EdgeW.reset_precalculated, updNode,
        updEdge, getNode, List.filter, List.dedup, node_radius, List.enum,
        List.enumFrom, List.find?_cons, Vec2.sub_def, Vec2.div_def])
    hsel
  have hlen : (SelectionsQ.elements ⟨[(0, [0, 1], [0]), (1, [1], [])]⟩).1.length
      + (SelectionsQ.elements ⟨[(0, [0, 1], [0]), (1, [1], [])]⟩).2.length
      = 3 := by
    norm_num [SelectionsQ.elements, List.dedup]
  have hm0 : 0 ∈ (SelectionsQ.elements ⟨[(0, [0, 1], [0]), (1, [1], [])]⟩).1 := by
    norm_num [SelectionsQ.elements, List.dedup]
  have hm1 : 1 ∈ (SelectionsQ.elements ⟨[(0, [0, 1], [0]), (1, [1], [])]⟩).1 := by
    norm_num [SelectionsQ.elements, List.dedup]
  have hme : 0 ∈ (SelectionsQ.elements ⟨[(0, [0, 1], [0]), (1, [1], [])]⟩).2 := by
    norm_num [SelectionsQ.elements, List.dedup]
  exact ⟨hlen ▸ h.1, (h.2.1 0 hm0).1, (h.2.1 1 hm1).1, (h.2.2 0 hme).1⟩

/-! Claim C9: the frame precomputation never touches selected or
dragged. -/

theorem updNode_selDrag (g : GraphQ) (j : Nat) (f : NodeW → NodeW) (i : Nat)
    (hf : ∀ n, (f n).selected = n.selected ∧ (f n).dragged = n.dragged) :
    (getNode (updNode g j f) i).selected = (getNode g i).selected ∧
    (getNode (updNode g j f) i).dragged = (getNode g i).dragged := by
  by_cases hij : i = j
  · subst hij
    rw [getNode_updNode_self]
    by_cases h : i < g.nodes.length
    · rw [if_pos h]
      exact hf _
    · rw [if_neg h]
      have hg : getNode g i = default := by
        simp [getNode, List.getElem?_eq_none (Nat.le_of_not_lt h)]
      rw [hg]
      exact ⟨rfl, rfl⟩
  · rw [getNode_updNode_ne _ _ _ _ hij]
    exact ⟨rfl, rfl⟩

theorem selDrag_foldl {β : Type} (step : GraphQ → β → GraphQ) (l : List β)
    (hstep : ∀ (g : GraphQ) (b : β) (i : Nat),
      (getNode (step g b) i).selected = (getNode g i).selected ∧
      (getNode (step g b) i).dragged = (getNode g i).dragged) :
    ∀ (g : GraphQ) (i : Nat),
      (getNode (l.foldl step g) i).selected = (getNode g i).selected ∧
      (getNode (l.foldl step g) i).dragged = (getNode g i).dragged := by
  induction l with
  | nil => intro g i; exact ⟨rfl, rfl⟩
  | cons b t ih =>
    intro g i
    simp only [List.foldl_cons]
    exact ⟨((ih (step g b) i).1).trans (hstep g b i).1,
           ((ih (step g b) i).2).trans (hstep g b i).2⟩

theorem resetStage_selDrag (g : GraphQ) (i : Nat) :
    (getNode
        { nodes := g.nodes.map NodeW.reset_precalculated
          edges := g.edges.map
            (fun er => { er with weight := er.weight.reset_precalculated }) }
        i).selected = (getNode g i).selected ∧
    (getNode
        { nodes := g.nodes.map NodeW.reset_precalculated
          edges := g.edges.map
            (fun er => { er with weight := er.weight.reset_precalculated }) }
        i).dragged = (getNode g i).dragged := by
  simp only [getNode, List.get?_eq_getElem?, List.getElem?_map]
  cases g.nodes[i]? with
  | none => exact ⟨rfl, rfl⟩
  | some a => exact ⟨rfl, rfl⟩

theorem radiusFold_selDrag (ss : SettingsStyle)
    (l : List ((Nat × Nat) × List Nat)) :
    ∀ (G : GraphQ) (i : Nat),
      (getNode (l.foldl
          (fun acc p =>
            let bonus := ss.edge_radius_weight * (p.2.length : ℚ)
            let acc1 := updNode acc p.1.1
              (fun n => { n with radius := n.radius + bonus })
            updNode acc1 p.1.2
              (fun n => { n with radius := n.radius + bonus })) G) i).selected =
        (getNode G i).selected ∧
      (getNode (l.foldl
          (fun acc p =>
            let bonus := ss.edge_radius_weight * (p.2.length : ℚ)
            let acc1 := updNode acc p.1.1
              (fun n => { n with radius := n.radius + bonus })
            updNode acc1 p.1.2
              (fun n => { n with radius := n.radius + bonus })) G) i).dragged =
        (getNode G i).dragged := by
  apply selDrag_foldl
  intro g p i
  have h2 := updNode_selDrag (updNode g p.1.1
      (fun n => { n with radius :=
        n.radius + ss.edge_radius_weight * (p.2.length : ℚ) })) p.1.2
    (fun n => { n with radius :=
      n.radius + ss.edge_radius_weight * (p.2.length : ℚ) }) i
    (fun n => ⟨rfl, rfl⟩)
  have h1 := updNode_selDrag g p.1.1
    (fun n => { n with radius :=
      n.radius + ss.edge_radius_weight * (p.2.length : ℚ) }) i
    (fun n => ⟨rfl, rfl⟩)
  exact ⟨h2.1.trans h1.1, h2.2.trans h1.2⟩

theorem nodeFlagFold_selDrag (si : SettingsInteraction) (l : List Nat) :
    ∀ (G : GraphQ) (i : Nat),
      (getNode (l.foldl
          (fun acc j => updNode acc j
            (fun n => if si.selection_depth > 0
              then { n with selected_child := true }
              else { n with selected_parent := true })) G) i).selected =
        (getNode G i).selected ∧
      (getNode (l.foldl
          (fun acc j => updNode acc j
            (fun n => if si.selection_depth > 0
              then { n with selected_child := true }
              else { n with selected_parent := true })) G) i).dragged =
        (getNode G i).dragged := by
  apply selDrag_foldl
  intro g j i
  apply updNode_selDrag
  intro n
  split <;> exact ⟨rfl, rfl⟩

theorem edgeFlagFold_nodes (si : SettingsInteraction) (l : List Nat) :
    ∀ (G : GraphQ),
      (l.foldl
          (fun acc j => updEdge acc j
            (fun e => if si.selection_depth > 0
              then { e with selected_child := true }
              else { e with selected_parent := true })) G).nodes = G.nodes := by
  induction l with
  | nil => intro G; rfl
  | cons j t ih =>
    intro G
    simp only [List.foldl_cons]
    rw [ih]
    rfl

/-- C9: the per-frame precomputation resets radius and the transient
selected_child / selected_parent flags but leaves every node's selected
and dragged flags exactly as they were before the call, for every graph
and settings. -/
theorem C9_precompute_preserves_selected_dragged (g : GraphQ)
    (si : SettingsInteraction) (ss : SettingsStyle) (i : Nat) :
    (getNode (precompute_state g si ss).1 i).selected =
      (getNode g i).selected ∧
    (getNode (precompute_state g si ss).1 i).dragged =
      (getNode g i).dragged := by
  simp only [precompute_state]
  constructor
  · rw [getNode_congr (edgeFlagFold_nodes si _ _)]
    exact ((nodeFlagFold_selDrag si _ _ i).1.trans
      ((radiusFold_selDrag ss _ _ i).1.trans (resetStage_selDrag g i).1))
  · rw [getNode_congr (edgeFlagFold_nodes si _ _)]
    exact ((nodeFlagFold_selDrag si _ _ i).2.trans
      ((radiusFold_selDrag ss _ _ i).2.trans (resetStage_selDrag g i).2))

end EguiGraphs
